import Mathlib

/-!
# Formal model of the MESG service client (`src/service.go`)

This file gives a shallow embedding of the task-listening core of the MESG
service client and proves properties of it.

Two layers of modelling are used:

* **Sequential functions** for the purely sequential code paths:
  `New` / `setupServiceClient` (construction and dial), the `Listen`
  re-entrancy guard, the body of `executeTask`, and the body of `Close`
  run on a quiescent service.

* **A labelled small-step transition system** (`Sys`, `next`, `run`) for the
  concurrent listening phase: the receive loop goroutine, the
  stream-context watcher goroutine, the spawned task executions, the
  unbuffered `errC` rendezvous and the `Close` caller.  Nondeterministic
  scheduling is resolved by the choice of the event list, so `run` is an
  executable function and concrete schedules can be checked by evaluation.
-/

/-- `serviceapi.TaskData`: one received task message
(execution id, task key and the serialized input payload). -/
structure TaskData where
  executionID : String
  taskKey : String
  inputData : String
deriving DecidableEq

/-- Go error values observable by the listening and shutdown paths.
`ctxCanceled` is Go's `context.Canceled` (the value of
`stream.Context().Err()` after the cancellation function runs, and the
status of a `Recv` aborted by it); `streamErr n` stands for any other
error value, indexed by a code — a stream failure from another cause, or
the result of the underlying `conn.Close()`. -/
inductive GoErr
  | ctxCanceled
  | streamErr (code : Nat)
deriving DecidableEq

/-- The `Taskable` interface used by `service.go` (defined in the
repository's `task.go`, outside `src/`).  Modelled from the spec:
a Handler is "a named, polymorphic unit of work" exposing its key and an
execute operation producing a success value or a failure indicator. -/
structure Taskable where
  key : String
  execute : TaskData → Except String String

/-- Entries written to the service logger by `executeTask`
(`src/service.go:232` and `src/service.go:237`). -/
inductive LogEntry
  | nonExistentTask (key : String)
  | replyFailure (msg : String)
deriving DecidableEq

/-- Observable effects of one `executeTask` run: the log entries written,
the number of reply attempts made, and the number of `gracefulWait.Done()`
calls performed. -/
structure ExecEffects where
  logs : List LogEntry
  replies : Nat
  decrements : Nat
deriving DecidableEq

/-- `Service.getTaskableByName` (`src/service.go:219-226`): linear scan of
`s.taskables`, returning the first handler whose key matches, else nil. -/
def getTaskableByName (taskables : List Taskable) (key : String) : Option Taskable :=
  taskables.find? (fun t => t.key == key)

/-- `Service.executeTask` (`src/service.go:228-239`).  `gracefulWait.Done()`
is deferred, so it runs on every exit path.  If the lookup fails the error
`errNonExistentTask` is logged and no reply is attempted.  Otherwise the
handler runs and one reply is attempted with its outcome;
`execution.reply` (in the repository's `execution.go`, outside `src/`) is
modelled from the spec as an opaque fallible unary call: the reply payload
(the serialized handler outcome) is not tracked in `ExecEffects`, only the
attempt and its result `replyErr`, which is logged on failure and not
retried. -/
def executeTask (taskables : List Taskable) (replyErr : Option String)
    (data : TaskData) : ExecEffects :=
  match getTaskableByName taskables data.taskKey with
  | none => ⟨[.nonExistentTask data.taskKey], 0, 1⟩
  | some _ =>
    match replyErr with
    | some e => ⟨[.replyFailure e], 1, 1⟩
    | none => ⟨[], 1, 1⟩

/-- The part of `Service`'s runtime state relevant to the `Listen`
re-entrancy guard (`src/service.go:162-171`): the `isListening` flag and
the registered handlers. -/
structure ListenState where
  isListening : Bool
  taskables : List Taskable

/-- Result of the guarded prefix of `Listen`: either the call is rejected
with `errAlreadyListening` (`src/service.go:164-167`), or it proceeds to
`validateTasks` and `listenTasks` with the handler list it installed. -/
inductive ListenResult
  | alreadyListening
  | proceeds (taskables : List Taskable)

/-- The guarded prefix of `Service.Listen` (`src/service.go:162-175`):
under `ml`, a set `isListening` flag causes an immediate
`errAlreadyListening` return with no state change; otherwise the flag is
set, and `s.taskables` becomes `tasks` with `task` appended
(`src/service.go:170-171`). -/
def listenStart (s : ListenState) (task : Taskable) (tasks : List Taskable) :
    ListenResult × ListenState :=
  if s.isListening then (.alreadyListening, s)
  else (.proceeds (tasks ++ [task]),
        { isListening := true, taskables := tasks ++ [task] })

/-- Errors returned by `New` (`src/service.go:28-31`, and a dial failure
from `setupServiceClient`, `src/service.go:149-159`). -/
inductive NewError
  | endpointNotSet
  | tokenNotSet
  | dialFailure (code : Nat)
deriving DecidableEq

/-- The runtime state of a freshly constructed `Service` that later claims
refer to: configuration plus the zero-valued flags.  `cancelSet` models
whether the `cancel` field holds a function: it is the Go zero value `nil`
until `listenTasks` stores a cancellation function
(`src/service.go:54`, `src/service.go:185`). -/
structure ServiceState where
  endpoint : String
  token : String
  cancelSet : Bool
  isListening : Bool
  closing : Bool
deriving DecidableEq

/-- The outcome of `New` (`src/service.go:80-105`): the service value
returned (Go returns a non-nil service even when the dial fails, since
`New` ends with `return s, s.setupServiceClient()`), the error, and how
many dial attempts were made. -/
structure NewResult where
  service : Option ServiceState
  err : Option NewError
  dialAttempts : Nat
deriving DecidableEq

/-- `New` (`src/service.go:80-105`) after all options are applied:
`endpoint` and `token` are the final configured values.  An empty endpoint
yields `errEndpointNotSet` and an empty token yields `errTokenNotSet`,
both before `setupServiceClient` runs; otherwise `setupServiceClient`
performs exactly one `grpc.DialContext` call (`src/service.go:153`), whose
result is the parameter `dialErr` (`none` for success). -/
def NewModel (endpoint token : String) (dialErr : Option Nat) : NewResult :=
  if endpoint = "" then ⟨none, some .endpointNotSet, 0⟩
  else if token = "" then ⟨none, some .tokenNotSet, 0⟩
  else
    match dialErr with
    | some code => ⟨some ⟨endpoint, token, false, false, false⟩, some (.dialFailure code), 1⟩
    | none => ⟨some ⟨endpoint, token, false, false, false⟩, none, 1⟩

/-- What the statement `s.cancel()` inside `Close` (`src/service.go:263`)
does, depending on whether a cancellation function was ever stored:
calling a nil Go function value panics. -/
inductive CancelCallOutcome
  | panicNilCancelFunc
  | proceeds
deriving DecidableEq

/-- The `s.cancel()` call inside `Close` (`src/service.go:263`): `cancel`
is the zero value nil until `listenTasks` assigns it
(`src/service.go:185`), and invoking a nil function value panics. -/
def closeCancelCall (s : ServiceState) : CancelCallOutcome :=
  if s.cancelSet then .proceeds else .panicNilCancelFunc

/-- State touched by a `Close` call running on a quiescent service (the
`gracefulWait` counter is zero, so `Wait()` returns immediately):
the `closing` flag, the effect flag of the cancellation function, and how
many times the cancellation function and `conn.Close()` have been
invoked. -/
structure CloseState where
  closing : Bool
  ctxCanceled : Bool
  cancelInvocations : Nat
  connCloseInvocations : Nat
deriving DecidableEq

/-- Go `context.CancelFunc` semantics (stdlib contract): it may be called
multiple times; the first call cancels the context and subsequent calls do
nothing further.  Every call is counted. -/
def invokeCancel (s : CloseState) : CloseState :=
  { s with ctxCanceled := true, cancelInvocations := s.cancelInvocations + 1 }

/-- `Service.Close` (`src/service.go:259-266`) on a quiescent service:
under `mc` it unconditionally sets `closing`, invokes the cancellation
function, waits (immediately satisfied here), and invokes `conn.Close()`.
There is no guard that skips any of these on a repeated call. -/
def closeModel (s : CloseState) : CloseState :=
  let s1 := { s with closing := true }
  let s2 := invokeCancel s1
  { s2 with connCloseInvocations := s2.connCloseInvocations + 1 }

/-- A quiescent just-listening service about to be closed: nothing
cancelled yet, no invocations recorded. -/
def closeInit : CloseState := ⟨false, false, 0, 0⟩

/-- Program counter of the receive-loop goroutine
(`src/service.go:200-215`).  `atAdd` is the top of the loop, about to call
`gracefulWait.Add(1)`; `atRecv` is blocked inside `stream.Recv()`;
`atSpawn d` holds a successfully received message `d` about to be handed
to `go s.executeTask(d)`; `atFailDone e` is the error branch about to call
`gracefulWait.Done()`; `atCheck e` is about to read `s.closing`;
`atReport v` is about to send `v` on `errC`; `exited` is after the
`return`. -/
inductive LoopPC
  | atAdd
  | atRecv
  | atSpawn (d : TaskData)
  | atFailDone (e : GoErr)
  | atCheck (e : GoErr)
  | atReport (v : Option GoErr)
  | exited
deriving DecidableEq

/-- Program counter of the stream-context watcher goroutine
(`src/service.go:195-198`): blocked on `<-stream.Context().Done()`, then
ready to send `stream.Context().Err()` on `errC`, then done. -/
inductive WatcherPC
  | waiting
  | ready
  | sent
deriving DecidableEq

/-- Program counter of the `Close` caller (`src/service.go:259-266`):
not yet called, `closing` set and about to call `s.cancel()`,
blocked in `gracefulWait.Wait()`, and returned (connection released). -/
inductive ClosePC
  | idle
  | cancelPending
  | waiting
  | returned
deriving DecidableEq

/-- Global state of the listening phase, entered once
`s.client.ListenTask` has returned a stream and both goroutines of
`listenTasks` are running, with `listenTasks` itself blocked on
`return <-errC` (`src/service.go:182-217`).

`counter` is the `gracefulWait` counter, `running` the number of spawned
but unfinished `executeTask` goroutines, `buffer` the messages buffered in
the stream and not yet received, and `mainResult` the value `listenTasks`
(and hence `Listen`) returned, `none` while it is still blocked on
`errC`.  `closeResult` is the value the `Close` call returned
(`return s.conn.Close()`, `src/service.go:265`), `none` while `Close` has
not returned; `connErr` is the result the underlying `conn.Close()` will
produce when invoked, fixed by the environment for the whole run. -/
structure Sys where
  closing : Bool
  canceled : Bool
  counter : Nat
  running : Nat
  buffer : List TaskData
  loop : LoopPC
  watcher : WatcherPC
  closeP : ClosePC
  mainResult : Option (Option GoErr)
  closeResult : Option (Option GoErr)
  connErr : Option GoErr
deriving DecidableEq

/-- Scheduling events of the listening phase.  Each event is one atomic
step of one goroutine; an event list is one interleaving chosen by the
scheduler. -/
inductive Event
  | gwAdd
  | recvOk
  | recvCancelFail
  | recvStreamFail (code : Nat)
  | gwDoneOnFail
  | checkClosing
  | spawnExec
  | finishExec
  | watcherWake
  | sendWatcher
  | sendLoop (v : Option GoErr)
  | closeSetClosing
  | closeCancel
  | closeConnRelease
deriving DecidableEq

/-- One atomic scheduling step; `none` when the event's goroutine is not
at that statement or its guard does not hold.

* `gwAdd`: `s.gracefulWait.Add(1)` at the top of the loop
  (`src/service.go:202`), then block in `Recv`.
* `recvOk`: `stream.Recv()` returns the first buffered message; only
  possible while the stream context is not cancelled.
* `recvCancelFail`: after cancellation `stream.Recv()` fails with the
  cancellation status even if messages are still buffered.
* `recvStreamFail code`: the stream fails for any other cause.
* `gwDoneOnFail`: `s.gracefulWait.Done()` in the error branch
  (`src/service.go:205`).
* `checkClosing`: the `if s.closing` test picks the value sent on `errC`:
  `nil` when closing, the receive error otherwise (`src/service.go:206-211`).
* `spawnExec`: `go s.executeTask(data)` (`src/service.go:213`); the
  pending `Add` is from now on repaid by that execution's deferred `Done`.
* `finishExec`: one running execution finishes; its deferred
  `gracefulWait.Done()` runs (`src/service.go:229`).
* `watcherWake`: `<-stream.Context().Done()` unblocks
  (`src/service.go:196`).
* `sendWatcher`: rendezvous of `errC <- stream.Context().Err()`
  (`src/service.go:197`) with `return <-errC` (`src/service.go:216`);
  after cancellation the context error is `context.Canceled`.
* `sendLoop v`: rendezvous of the loop's `errC <- v`
  (`src/service.go:207`, `src/service.go:210`) with `return <-errC`.
* `closeSetClosing` / `closeCancel`: `s.closing = true` then `s.cancel()`
  under `mc` (`src/service.go:262-263`).
* `closeConnRelease`: `gracefulWait.Wait()` unblocks — only possible with
  the counter at zero — then `conn.Close()` runs and `Close` returns its
  result (`return s.conn.Close()`, `src/service.go:264-265`). -/
def next (s : Sys) : Event → Option Sys
  | .gwAdd =>
    match s.loop with
    | .atAdd => some { s with counter := s.counter + 1, loop := .atRecv }
    | _ => none
  | .recvOk =>
    match s.loop, s.canceled, s.buffer with
    | .atRecv, false, d :: rest => some { s with loop := .atSpawn d, buffer := rest }
    | _, _, _ => none
  | .recvCancelFail =>
    match s.loop, s.canceled with
    | .atRecv, true => some { s with loop := .atFailDone .ctxCanceled }
    | _, _ => none
  | .recvStreamFail code =>
    match s.loop, s.canceled with
    | .atRecv, false => some { s with loop := .atFailDone (.streamErr code) }
    | _, _ => none
  | .gwDoneOnFail =>
    match s.loop with
    | .atFailDone e => some { s with loop := .atCheck e, counter := s.counter - 1 }
    | _ => none
  | .checkClosing =>
    match s.loop with
    | .atCheck e =>
      some { s with loop := .atReport (if s.closing then none else some e) }
    | _ => none
  | .spawnExec =>
    match s.loop with
    | .atSpawn _ => some { s with loop := .atAdd, running := s.running + 1 }
    | _ => none
  | .finishExec =>
    match s.running with
    | r + 1 => some { s with running := r, counter := s.counter - 1 }
    | 0 => none
  | .watcherWake =>
    match s.watcher, s.canceled with
    | .waiting, true => some { s with watcher := .ready }
    | _, _ => none
  | .sendWatcher =>
    match s.watcher, s.mainResult with
    | .ready, none =>
      some { s with watcher := .sent, mainResult := some (some .ctxCanceled) }
    | _, _ => none
  | .sendLoop v =>
    match s.loop, s.mainResult with
    | .atReport w, none =>
      if w = v then some { s with loop := .exited, mainResult := some v } else none
    | _, _ => none
  | .closeSetClosing =>
    match s.closeP with
    | .idle => some { s with closing := true, closeP := .cancelPending }
    | _ => none
  | .closeCancel =>
    match s.closeP with
    | .cancelPending => some { s with canceled := true, closeP := .waiting }
    | _ => none
  | .closeConnRelease =>
    match s.closeP, s.counter with
    | .waiting, 0 =>
      some { s with closeP := .returned, closeResult := some s.connErr }
    | _, _ => none

/-- Execute a whole schedule: `some` final state when every event is an
enabled step from the state reached so far. -/
def run (s : Sys) : List Event → Option Sys
  | [] => some s
  | e :: es =>
    match next s e with
    | some s' => run s' es
    | none => none

/-- The listening phase's initial state (`src/service.go:182-201`): stream
open with `buf` buffered messages, counter zero, loop at its top, watcher
blocked, `Close` not yet called, `Listen` still blocked on `errC`. -/
def listenInit (buf : List TaskData) : Sys :=
  ⟨false, false, 0, 0, buf, .atAdd, .waiting, .idle, none, none, none⟩

/-- The listening phase's initial state when the underlying
`conn.Close()` will produce the result `ce` (an arbitrary error, or
`none` for a clean release). -/
def listenInitConn (buf : List TaskData) (ce : Option GoErr) : Sys :=
  { listenInit buf with connErr := ce }

/-- How much of the `gracefulWait` counter is held by the receive loop
itself: the `Add(1)` at the loop top is repaid either by handing it to a
spawned execution or by the loop's own `Done()` in the error branch. -/
def loopHold : LoopPC → Nat
  | .atRecv => 1
  | .atSpawn _ => 1
  | .atFailDone _ => 1
  | _ => 0

/-- The outcome an event delivers to the blocked `Listen` call, if any:
both rendezvous events carry one. -/
def reportValue : Event → Option (Option GoErr)
  | .sendLoop v => some v
  | .sendWatcher => some (some .ctxCanceled)
  | _ => none

/-- All outcomes delivered to `Listen` during a schedule. -/
def reportedValues (es : List Event) : List (Option GoErr) :=
  es.filterMap reportValue

/-- Recognize the `s.cancel()` step of `Close`. -/
def isCancelEvent : Event → Bool
  | .closeCancel => true
  | _ => false

/-- Recognize a successful receive from the stream. -/
def isRecvOkEvent : Event → Bool
  | .recvOk => true
  | _ => false

/-- Recognize a dispatch (`go s.executeTask(data)`). -/
def isSpawnEvent : Event → Bool
  | .spawnExec => true
  | _ => false

/-- Whether some event satisfying `q` occurs strictly after the first
event satisfying `p`. -/
def afterFirst (p q : Event → Bool) : List Event → Bool
  | [] => false
  | e :: es => if p e then es.any q else afterFirst p q es

/-- A sample task message. -/
def msg0 : TaskData := ⟨"exec1", "sum", "payload"⟩

/-- A sample handler echoing its input. -/
def echoTask : Taskable := ⟨"echo", fun d => .ok d.inputData⟩

/-- Another sample handler. -/
def logTask : Taskable := ⟨"log", fun _ => .ok ""⟩

/-- Schedule: `Close` runs while the loop is blocked in `Recv`, and the
stream-context watcher wins the race for the unbuffered `errC`. -/
def watcherWinsSchedule : List Event :=
  [.gwAdd, .closeSetClosing, .closeCancel, .watcherWake, .sendWatcher]

/-- Schedule prefix: `Close` cancels, then the loop's `Recv` fails with
the cancellation status and the loop reaches the `s.closing` check. -/
def cancelCheckSchedule : List Event :=
  [.closeSetClosing, .closeCancel, .gwAdd, .recvCancelFail, .gwDoneOnFail]

/-- The state reached by `cancelCheckSchedule` from an empty stream. -/
def cancelCheckState : Sys :=
  ⟨true, true, 0, 0, [], .atCheck .ctxCanceled, .waiting, .waiting, none, none, none⟩

/-- Schedule: `Close` cancels and the loop path delivers the outcome. -/
def loopWinsSchedule : List Event :=
  [.closeSetClosing, .closeCancel, .gwAdd, .recvCancelFail, .gwDoneOnFail,
   .checkClosing, .sendLoop none]

/-- The state reached by `loopWinsSchedule` from an empty stream. -/
def loopWinsFinal : Sys :=
  ⟨true, true, 0, 0, [], .exited, .waiting, .waiting, some none, none, none⟩

/-- Schedule: a message is received just before `Close` cancels, and its
execution is spawned just after. -/
def lateDispatchSchedule : List Event :=
  [.gwAdd, .recvOk, .closeSetClosing, .closeCancel, .spawnExec]

/-- The state reached by `lateDispatchSchedule` from a one-message
stream: one execution is running although cancellation already
happened. -/
def lateDispatchFinal : Sys :=
  ⟨true, true, 1, 1, [], .atAdd, .waiting, .waiting, none, none, none⟩

/-- Schedule: one execution is dispatched, `Close` starts, the execution
finishes, and only then does `Close` pass `Wait` and release the
connection. -/
def drainSchedule : List Event :=
  [.gwAdd, .recvOk, .spawnExec, .closeSetClosing, .closeCancel, .finishExec,
   .closeConnRelease]

/-- A sample non-nil result for the underlying `conn.Close()` call. -/
def connCloseErr : Option GoErr := some (.streamErr 7)

/-- The state just before `closeConnRelease` in `drainSchedule`, started
with `conn.Close()` destined to produce `connCloseErr`. -/
def drainPre : Sys :=
  ⟨true, true, 0, 0, [], .atAdd, .waiting, .waiting, none, none, connCloseErr⟩

/-- The state reached by `drainSchedule` from a one-message stream:
`Close` has returned exactly the connection-release error. -/
def drainFinal : Sys :=
  ⟨true, true, 0, 0, [], .atAdd, .waiting, .returned, none, some connCloseErr,
   connCloseErr⟩

/-- The state reached by `[.gwAdd, .recvOk]` from a one-message stream:
a received message is pending dispatch and the counter already holds its
increment. -/
def spawnPendingState : Sys :=
  ⟨false, false, 1, 0, [], .atSpawn msg0, .waiting, .idle, none, none, none⟩

/-- A state with one running execution about to finish. -/
def execFinishPre : Sys := ⟨false, false, 1, 1, [], .atAdd, .waiting, .idle, none, none, none⟩

/-- `execFinishPre` after the execution's deferred `Done()`. -/
def execFinishPost : Sys := ⟨false, false, 0, 0, [], .atAdd, .waiting, .idle, none, none, none⟩

/-- Inductive invariant of the listening phase:

1. the `gracefulWait` counter equals the loop's own pending `Add` plus the
   number of running executions (every increment is repaid exactly once);
2. the context is only ever cancelled by `Close`, which sets `closing`
   first, so `canceled` implies `closing`;
3. once `Close` has invoked the cancellation function, the context stays
   cancelled;
4. `Close` sets `closing` before invoking the cancellation function;
5. once `Close` has returned, no execution is running and no received
   message is still waiting to be dispatched;
6. the loop only ever sees the cancellation status after the context was
   cancelled. -/
def SysInv (s : Sys) : Prop :=
  s.counter = loopHold s.loop + s.running
  ∧ (s.canceled = true → s.closing = true)
  ∧ ((s.closeP = .waiting ∨ s.closeP = .returned) → s.canceled = true)
  ∧ (s.closeP = .cancelPending → s.closing = true)
  ∧ (s.closeP = .returned → s.running = 0 ∧ ∀ d, s.loop ≠ .atSpawn d)
  ∧ ((s.loop = .atFailDone .ctxCanceled ∨ s.loop = .atCheck .ctxCanceled) →
      s.canceled = true)

/-- Every enabled step preserves the invariant. -/
theorem inv_next {s s' : Sys} {e : Event} (hI : SysInv s) (h : next s e = some s') :
    SysInv s' := by
  obtain ⟨h1, h2, h3, h4, h5, h6⟩ := hI
  cases e <;> simp only [next] at h <;>
    (repeat' split at h) <;>
    first
    | exact Option.noConfusion h
    | (simp only [Option.some.injEq] at h; subst h;
       refine ⟨?_, ?_, ?_, ?_, ?_, ?_⟩ <;>
         (try simp_all [SysInv, loopHold]) <;> (try omega))
  all_goals
    first
    | exact h1
    | exact h2
    | exact h6
    | exact fun hx => ClosePC.noConfusion hx
    | exact fun _ => h3 (Or.inl ‹s.closeP = ClosePC.waiting›)
    | (refine fun _ => ⟨(by omega : s.running = 0), fun d hd => ?_⟩
       have hd' : s.loop = LoopPC.atSpawn d := hd
       rw [hd'] at h1
       simp only [loopHold] at h1
       omega)

/-- The initial state satisfies the invariant. -/
theorem inv_listenInit (buf : List TaskData) : SysInv (listenInit buf) := by
  refine ⟨rfl, ?_, ?_, ?_, ?_, ?_⟩ <;> simp [listenInit]

/-- Unfold one step of a schedule. -/
theorem run_cons {s σ : Sys} {e : Event} {es : List Event}
    (h : run s (e :: es) = some σ) :
    ∃ s', next s e = some s' ∧ run s' es = some σ := by
  cases hn : next s e with
  | none => simp [run, hn] at h
  | some s' => exact ⟨s', rfl, by simpa [run, hn] using h⟩

/-- The invariant holds after any schedule that starts in a state
satisfying it. -/
theorem inv_run {es : List Event} {s σ : Sys} (hI : SysInv s)
    (h : run s es = some σ) : SysInv σ := by
  induction es generalizing s with
  | nil => cases h; exact hI
  | cons e es ih =>
    obtain ⟨s', hn, hr⟩ := run_cons h
    exact ih (inv_next hI hn) hr

/-- Once `Listen` has received its outcome from `errC`, no later step
changes it and no later step delivers another outcome: both rendezvous
need the receiver still blocked. -/
theorem next_after_result {s s' : Sys} {e : Event} {v : Option GoErr}
    (h : next s e = some s') (hm : s.mainResult = some v) :
    s'.mainResult = some v ∧ reportValue e = none := by
  cases e <;> simp only [next] at h <;> (repeat' split at h) <;>
    first
    | exact Option.noConfusion h
    | (simp only [Option.some.injEq] at h; subst h; simp_all [reportValue])

/-- After the outcome is delivered, the rest of the schedule delivers
nothing further. -/
theorem run_after_result {es : List Event} {s σ : Sys} {v : Option GoErr}
    (h : run s es = some σ) (hm : s.mainResult = some v) :
    σ.mainResult = some v ∧ reportedValues es = [] := by
  induction es generalizing s with
  | nil => cases h; exact ⟨hm, rfl⟩
  | cons e es ih =>
    obtain ⟨s', hn, hr⟩ := run_cons h
    obtain ⟨hm', hv⟩ := next_after_result hn hm
    obtain ⟨ha, hb⟩ := ih hr hm'
    exact ⟨ha, by simpa [reportedValues, List.filterMap_cons, hv] using hb⟩

/-- A step that delivers no outcome leaves `mainResult` unchanged. -/
theorem next_mainResult_nonreport {s s' : Sys} {e : Event}
    (h : next s e = some s') (hv : reportValue e = none) :
    s'.mainResult = s.mainResult := by
  cases e <;>
    first
    | (simp only [next] at h; (repeat' split at h) <;>
       first
       | exact Option.noConfusion h
       | (simp only [Option.some.injEq] at h; subst h; rfl))
    | exact Option.noConfusion hv

/-- A step that delivers an outcome requires the receiver to still be
blocked and records exactly the delivered value. -/
theorem next_mainResult_report {s s' : Sys} {e : Event} {v : Option GoErr}
    (h : next s e = some s') (hv : reportValue e = some v) :
    s.mainResult = none ∧ s'.mainResult = some v := by
  cases e <;> simp only [reportValue, Option.some.injEq] at hv <;>
    first
    | exact Option.noConfusion hv
    | (subst hv;
       simp only [next] at h; (repeat' split at h) <;>
       first
       | exact Option.noConfusion h
       | (simp only [Option.some.injEq] at h; subst h;
          exact ⟨‹s.mainResult = none›, rfl⟩))

/-- In any schedule started while `Listen` is still blocked, at most one
outcome is delivered, and the value `Listen` ends up with is the first
(hence only) delivered outcome. -/
theorem run_reports {es : List Event} {s σ : Sys}
    (h : run s es = some σ) (hm : s.mainResult = none) :
    σ.mainResult = (reportedValues es).head? ∧ (reportedValues es).length ≤ 1 := by
  induction es generalizing s with
  | nil => cases h; simp [reportedValues, hm]
  | cons e es ih =>
    obtain ⟨s', hn, hr⟩ := run_cons h
    cases hv : reportValue e with
    | none =>
      have hm' : s'.mainResult = none := (next_mainResult_nonreport hn hv).trans hm
      obtain ⟨ha, hb⟩ := ih hr hm'
      refine ⟨?_, ?_⟩
      · rw [ha]; simp [reportedValues, List.filterMap_cons, hv]
      · simpa [reportedValues, List.filterMap_cons, hv] using hb
    | some v =>
      obtain ⟨-, hm'⟩ := next_mainResult_report hn hv
      obtain ⟨ha, hb⟩ := run_after_result hr hm'
      have hrv : reportedValues (e :: es) = [v] := by
        simpa [reportedValues, List.filterMap_cons, hv] using hb
      rw [hrv, ha]
      exact ⟨rfl, by simp⟩

/-- Cancellation is permanent: no step resets the context. -/
theorem next_canceled_mono {s s' : Sys} {e : Event}
    (h : next s e = some s') (hc : s.canceled = true) : s'.canceled = true := by
  cases e <;> simp only [next] at h <;> (repeat' split at h) <;>
    first
    | exact Option.noConfusion h
    | (simp only [Option.some.injEq] at h; subst h; simp_all)

/-- A successful receive requires the context not to be cancelled:
after cancellation `Recv` only fails, even on a non-empty buffer. -/
theorem next_recvOk_not_canceled {s s' : Sys}
    (h : next s .recvOk = some s') : s.canceled = false := by
  simp only [next] at h; (repeat' split at h) <;>
    first
    | exact Option.noConfusion h
    | assumption

/-- From a cancelled state, no schedule ever contains a successful
receive. -/
theorem run_no_recvOk_after_cancel {es : List Event} {s σ : Sys}
    (h : run s es = some σ) (hc : s.canceled = true) :
    es.any isRecvOkEvent = false := by
  induction es generalizing s with
  | nil => rfl
  | cons e es ih =>
    obtain ⟨s', hn, hr⟩ := run_cons h
    have hc' := next_canceled_mono hn hc
    have he : isRecvOkEvent e = false := by
      cases e <;> simp [isRecvOkEvent]
      exact absurd (next_recvOk_not_canceled hn) (by simp [hc])
    simp [List.any_cons, he, ih hr hc']

/-- The `closeCancel` step leaves the context cancelled. -/
theorem next_closeCancel_canceled {s s' : Sys}
    (h : next s .closeCancel = some s') : s'.canceled = true := by
  simp only [next] at h; (repeat' split at h) <;>
    first
    | exact Option.noConfusion h
    | (simp only [Option.some.injEq] at h; subst h; rfl)

/-- In any valid schedule, no successful receive happens after the
`s.cancel()` step of `Close`. -/
theorem run_no_recvOk_after_closeCancel {es : List Event} {s σ : Sys}
    (h : run s es = some σ) :
    afterFirst isCancelEvent isRecvOkEvent es = false := by
  induction es generalizing s with
  | nil => rfl
  | cons e es ih =>
    obtain ⟨s', hn, hr⟩ := run_cons h
    by_cases hce : e = .closeCancel
    · subst hce
      have hc' := next_closeCancel_canceled hn
      simpa [afterFirst, isCancelEvent] using run_no_recvOk_after_cancel hr hc'
    · have hne : isCancelEvent e = false := by
        cases e <;> simp_all [isCancelEvent]
      simpa [afterFirst, hne] using ih hr

/-- The environment-fixed `conn.Close()` result never changes during a
step. -/
theorem next_connErr_const {s s' : Sys} {e : Event} (h : next s e = some s') :
    s'.connErr = s.connErr := by
  cases e <;> simp only [next] at h <;> (repeat' split at h) <;>
    first
    | exact Option.noConfusion h
    | (simp only [Option.some.injEq] at h; subst h; rfl)

/-- The environment-fixed `conn.Close()` result never changes along a
schedule. -/
theorem run_connErr_const {es : List Event} {s σ : Sys}
    (h : run s es = some σ) : σ.connErr = s.connErr := by
  induction es generalizing s with
  | nil => cases h; rfl
  | cons e es ih =>
    obtain ⟨s', hn, hr⟩ := run_cons h
    exact (ih hr).trans (next_connErr_const hn)

/-- Every step preserves the fact that once `Close` has returned, the
value it returned is the `conn.Close()` result. -/
theorem next_closeResult_inv {s s' : Sys} {e : Event} (h : next s e = some s')
    (hp : s.closeP = .returned → s.closeResult = some s.connErr) :
    s'.closeP = .returned → s'.closeResult = some s'.connErr := by
  cases e <;> simp only [next] at h <;> (repeat' split at h) <;>
    first
    | exact Option.noConfusion h
    | (simp only [Option.some.injEq] at h; subst h; simp_all)

/-- Along any schedule, once `Close` has returned, the value it returned
is the `conn.Close()` result. -/
theorem run_closeResult_inv {es : List Event} {s σ : Sys}
    (h : run s es = some σ)
    (hp : s.closeP = .returned → s.closeResult = some s.connErr) :
    σ.closeP = .returned → σ.closeResult = some σ.connErr := by
  induction es generalizing s with
  | nil => cases h; exact hp
  | cons e es ih =>
    obtain ⟨s', hn, hr⟩ := run_cons h
    exact ih hr (next_closeResult_inv hn hp)

/-- The initial state satisfies the invariant for any pending
`conn.Close()` result. -/
theorem inv_listenInitConn (buf : List TaskData) (ce : Option GoErr) :
    SysInv (listenInitConn buf ce) := by
  refine ⟨rfl, ?_, ?_, ?_, ?_, ?_⟩ <;> simp [listenInitConn, listenInit]

/-- C8: `New` returns the endpoint-not-set error when the configured
endpoint is empty and the token-not-set error when the configured token is
empty, in both cases with zero dial attempts; with both non-empty, exactly
one dial attempt is performed. -/
theorem new_config_checks_before_dial (endpoint token : String) (dialErr : Option Nat) :
    (endpoint = "" →
      NewModel endpoint token dialErr = ⟨none, some .endpointNotSet, 0⟩)
    ∧ (endpoint ≠ "" → token = "" →
      NewModel endpoint token dialErr = ⟨none, some .tokenNotSet, 0⟩)
    ∧ (endpoint ≠ "" → token ≠ "" →
      (NewModel endpoint token dialErr).dialAttempts = 1) := by
  refine ⟨fun h1 => by simp [NewModel, h1],
    fun h1 h2 => by simp [NewModel, h1, h2],
    fun h1 h2 => ?_⟩
  cases dialErr <;> simp [NewModel, h1, h2]

/-- Witness for `new_config_checks_before_dial` at three concrete
configurations. -/
theorem new_config_checks_before_dial_witness :
    NewModel "" "tok" none = ⟨none, some .endpointNotSet, 0⟩
    ∧ NewModel "host" "" none = ⟨none, some .tokenNotSet, 0⟩
    ∧ (NewModel "host" "tok" none).dialAttempts = 1 :=
  ⟨(new_config_checks_before_dial "" "tok" none).1 rfl,
   (new_config_checks_before_dial "host" "" none).2.1 (by decide) rfl,
   (new_config_checks_before_dial "host" "tok" none).2.2 (by decide) (by decide)⟩

/-- C10: every service that `New` hands out still has the nil zero value
in its `cancel` field, so a `Close` before `Listen` reaches `s.cancel()`
with a nil function value and panics. -/
theorem close_before_listen_panics (endpoint token : String) (dialErr : Option Nat)
    (s : ServiceState) (h : (NewModel endpoint token dialErr).service = some s) :
    s.cancelSet = false ∧ closeCancelCall s = .panicNilCancelFunc := by
  unfold NewModel at h
  repeat' split at h
  all_goals first
  | exact Option.noConfusion h
  | (have h' : some (⟨endpoint, token, false, false, false⟩ : ServiceState) = some s := h
     injection h' with h''
     subst h''
     exact ⟨rfl, rfl⟩)

/-- Witness for `close_before_listen_panics` at a concrete
configuration. -/
theorem close_before_listen_panics_witness :
    (⟨"host", "tok", false, false, false⟩ : ServiceState).cancelSet = false
    ∧ closeCancelCall ⟨"host", "tok", false, false, false⟩ = .panicNilCancelFunc :=
  close_before_listen_panics "host" "tok" none
    ⟨"host", "tok", false, false, false⟩ rfl

/-- C5: starting from a non-listening service, the first `Listen` call
transitions the flag and proceeds with the installed handlers; a second
call is rejected with the already-listening error and changes nothing. -/
theorem second_listen_rejected_no_state_change (s : ListenState)
    (t1 t2 : Taskable) (ts1 ts2 : List Taskable) (h : s.isListening = false) :
    (listenStart s t1 ts1).1 = .proceeds (ts1 ++ [t1])
    ∧ (listenStart s t1 ts1).2.isListening = true
    ∧ listenStart (listenStart s t1 ts1).2 t2 ts2 =
        (.alreadyListening, (listenStart s t1 ts1).2) := by
  simp [listenStart, h]

/-- Witness for `second_listen_rejected_no_state_change` with concrete
handlers. -/
theorem second_listen_rejected_no_state_change_witness :
    (listenStart ⟨false, []⟩ echoTask []).1 = .proceeds ([] ++ [echoTask])
    ∧ (listenStart ⟨false, []⟩ echoTask []).2.isListening = true
    ∧ listenStart (listenStart ⟨false, []⟩ echoTask []).2 logTask [] =
        (.alreadyListening, (listenStart ⟨false, []⟩ echoTask []).2) :=
  second_listen_rejected_no_state_change ⟨false, []⟩ echoTask logTask [] [] rfl

/-- C6: a received request whose task key matches no registered handler is
non-fatal: the non-existent-task error is logged, no reply is attempted,
the counter is still decremented exactly once, and finishing an execution
leaves the receive loop's state (program counter, buffer, flags)
untouched, so the loop keeps accepting messages. -/
theorem unknown_task_nonfatal (ts : List Taskable) (replyErr : Option String)
    (d : TaskData) (s s' : Sys)
    (hlookup : getTaskableByName ts d.taskKey = none)
    (hstep : next s .finishExec = some s') :
    executeTask ts replyErr d = ⟨[.nonExistentTask d.taskKey], 0, 1⟩
    ∧ s'.loop = s.loop ∧ s'.buffer = s.buffer ∧ s'.canceled = s.canceled
    ∧ s'.closing = s.closing := by
  refine ⟨by simp [executeTask, hlookup], ?_⟩
  simp only [next] at hstep
  repeat' split at hstep
  all_goals first
  | exact Option.noConfusion hstep
  | (simp only [Option.some.injEq] at hstep; subst hstep;
     exact ⟨rfl, rfl, rfl, rfl⟩)

/-- Witness for `unknown_task_nonfatal`: the registry holds only the
handler `log` and the request names `sum`. -/
theorem unknown_task_nonfatal_witness :
    executeTask [logTask] none msg0 = ⟨[.nonExistentTask msg0.taskKey], 0, 1⟩
    ∧ execFinishPost.loop = execFinishPre.loop
    ∧ execFinishPost.buffer = execFinishPre.buffer
    ∧ execFinishPost.canceled = execFinishPre.canceled
    ∧ execFinishPost.closing = execFinishPre.closing :=
  unknown_task_nonfatal [logTask] none msg0 execFinishPre execFinishPost rfl rfl

/-- C2 counterexample: a second `Close` call is not a no-op — the code has
no guard, so the cancellation function is invoked a second time and
`conn.Close()` is invoked a second time (invocation counts reach 2). -/
theorem double_close_reinvokes_cancel_and_conn_close :
    (closeModel (closeModel closeInit)).cancelInvocations = 2
    ∧ (closeModel (closeModel closeInit)).connCloseInvocations = 2 :=
  ⟨rfl, rfl⟩

/-- C2 (amended): a second `Close` does not crash and the cancellation's
*effect* is idempotent — the flags are unchanged — but the second call
re-invokes both the cancellation function and `conn.Close()`; the safety
comes from the libraries' internal idempotence, not from any guard in
`Close`. -/
theorem second_close_no_panic_idempotent_effect (s : CloseState) :
    (closeModel (closeModel s)).closing = (closeModel s).closing
    ∧ (closeModel (closeModel s)).ctxCanceled = (closeModel s).ctxCanceled
    ∧ (closeModel (closeModel s)).cancelInvocations
        = (closeModel s).cancelInvocations + 1
    ∧ (closeModel (closeModel s)).connCloseInvocations
        = (closeModel s).connCloseInvocations + 1 :=
  ⟨rfl, rfl, rfl, rfl⟩

/-- Witness for `second_close_no_panic_idempotent_effect` at the
quiescent initial state. -/
theorem second_close_no_panic_idempotent_effect_witness :
    (closeModel (closeModel closeInit)).closing = (closeModel closeInit).closing
    ∧ (closeModel (closeModel closeInit)).ctxCanceled
        = (closeModel closeInit).ctxCanceled
    ∧ (closeModel (closeModel closeInit)).cancelInvocations
        = (closeModel closeInit).cancelInvocations + 1
    ∧ (closeModel (closeModel closeInit)).connCloseInvocations
        = (closeModel closeInit).connCloseInvocations + 1 :=
  second_close_no_panic_idempotent_effect closeInit

/-- C1 counterexample: there is a valid scheduling in which `Close` is
invoked while `Listen` is blocked in `Recv`, and `Listen` returns the
context-cancellation error itself rather than nil — the stream-context
watcher goroutine wins the race for the unbuffered `errC`. -/
theorem listen_close_can_return_cancellation_error :
    run (listenInit []) watcherWinsSchedule =
      some ⟨true, true, 1, 0, [], .atRecv, .sent, .waiting,
        some (some .ctxCanceled), none, none⟩
    ∧ (some (some GoErr.ctxCanceled) : Option (Option GoErr)) ≠ some none :=
  ⟨rfl, by decide⟩

/-- C1 (amended): whenever the receive loop handles a cancellation-caused
receive failure, the closing flag is already set (Close sets it before
invoking the cancellation function), so the loop path always reports nil
— but the watcher path may deliver the raw cancellation error first. -/
theorem listen_cancel_translated_to_nil_on_loop_path (buf : List TaskData)
    (es : List Event) (σ : Sys) (h : run (listenInit buf) es = some σ)
    (hl : σ.loop = .atCheck .ctxCanceled) :
    σ.closing = true
    ∧ next σ .checkClosing = some { σ with loop := .atReport none } := by
  obtain ⟨-, h2, -, -, -, h6⟩ := inv_run (inv_listenInit buf) h
  have hc : σ.canceled = true := h6 (Or.inr hl)
  have hcl : σ.closing = true := h2 hc
  refine ⟨hcl, ?_⟩
  simp [next, hl, hcl]

/-- Witness for `listen_cancel_translated_to_nil_on_loop_path` on a
concrete schedule. -/
theorem listen_cancel_translated_to_nil_on_loop_path_witness :
    cancelCheckState.closing = true
    ∧ next cancelCheckState .checkClosing =
        some { cancelCheckState with loop := .atReport none } :=
  listen_cancel_translated_to_nil_on_loop_path [] cancelCheckSchedule
    cancelCheckState rfl rfl

/-- C3: whenever `Close` has returned, every spawned execution has
finished (`running = 0`), the context was cancelled on the way, and
`Close` returned exactly the connection-release result `ce` (the error of
the underlying `conn.Close()`, if any); moreover the connection-release
step itself is only enabled with the `gracefulWait` counter at zero and
records precisely the `conn.Close()` result. -/
theorem close_returns_only_after_drain (buf : List TaskData) (ce : Option GoErr)
    (es : List Event) (σ : Sys) (s s' : Sys)
    (h : run (listenInitConn buf ce) es = some σ)
    (hret : σ.closeP = .returned) (hrel : next s .closeConnRelease = some s') :
    σ.running = 0 ∧ σ.canceled = true ∧ σ.closeResult = some ce
    ∧ s.counter = 0 ∧ s'.closeResult = some s.connErr := by
  obtain ⟨-, -, h3, -, h5, -⟩ := inv_run (inv_listenInitConn buf ce) h
  have hce : σ.connErr = ce := run_connErr_const h
  have hcr : σ.closeResult = some σ.connErr :=
    run_closeResult_inv h
      (by intro hx; simp [listenInitConn, listenInit] at hx) hret
  refine ⟨(h5 hret).1, h3 (Or.inr hret), hce ▸ hcr, ?_, ?_⟩
  · simp only [next] at hrel
    repeat' split at hrel
    all_goals first
    | exact Option.noConfusion hrel
    | assumption
  · simp only [next] at hrel
    repeat' split at hrel
    all_goals first
    | exact Option.noConfusion hrel
    | (simp only [Option.some.injEq] at hrel; subst hrel; rfl)

/-- Witness for `close_returns_only_after_drain` on a concrete drain
schedule with one in-flight execution and a failing `conn.Close()`. -/
theorem close_returns_only_after_drain_witness :
    drainFinal.running = 0 ∧ drainFinal.canceled = true
    ∧ drainFinal.closeResult = some connCloseErr
    ∧ drainPre.counter = 0 ∧ drainFinal.closeResult = some drainPre.connErr :=
  close_returns_only_after_drain [msg0] connCloseErr drainSchedule drainFinal
    drainPre drainFinal rfl rfl rfl

/-- C4 counterexample: a message received from the stream just before
`Close` cancels can still be dispatched (`go s.executeTask`) after the
cancellation function has been invoked — the schedule is valid and its
dispatch event follows the `s.cancel()` event. -/
theorem dispatch_can_follow_cancel :
    run (listenInit [msg0]) lateDispatchSchedule = some lateDispatchFinal
    ∧ afterFirst isCancelEvent isSpawnEvent lateDispatchSchedule = true
    ∧ lateDispatchFinal.running = 1 :=
  ⟨rfl, rfl, rfl⟩

/-- C4 (amended): after the cancellation function has been invoked, the
receive loop never *receives* another message from the stream, however
many are buffered; only the single message already received before
cancellation can still be dispatched, and it is accounted for in the
drain counter. -/
theorem no_receive_after_cancel (buf : List TaskData) (es : List Event)
    (σ : Sys) (h : run (listenInit buf) es = some σ) :
    afterFirst isCancelEvent isRecvOkEvent es = false :=
  run_no_recvOk_after_closeCancel h

/-- Witness for `no_receive_after_cancel` on the late-dispatch
schedule. -/
theorem no_receive_after_cancel_witness :
    afterFirst isCancelEvent isRecvOkEvent lateDispatchSchedule = false :=
  no_receive_after_cancel [msg0] lateDispatchSchedule lateDispatchFinal rfl

/-- C7: the `gracefulWait` counter always equals the loop's own pending
increment plus the number of running executions (each increment is repaid
exactly once); in particular the counter is never zero while a received
message awaits dispatch, and every `executeTask` run performs exactly one
decrement whatever its exit path. -/
theorem inflight_counter_accounting (buf : List TaskData) (es : List Event)
    (σ : Sys) (ts : List Taskable) (replyErr : Option String) (d : TaskData)
    (h : run (listenInit buf) es = some σ) :
    σ.counter = loopHold σ.loop + σ.running
    ∧ (σ.loop = .atSpawn d → 1 ≤ σ.counter)
    ∧ (executeTask ts replyErr d).decrements = 1 := by
  have h1 := (inv_run (inv_listenInit buf) h).1
  refine ⟨h1, fun hs => ?_, ?_⟩
  · rw [hs] at h1; simp only [loopHold] at h1; omega
  · cases hg : getTaskableByName ts d.taskKey with
    | none => simp [executeTask, hg]
    | some t => cases replyErr <;> simp [executeTask, hg]

/-- Witness for `inflight_counter_accounting` at the state with a pending
dispatch. -/
theorem inflight_counter_accounting_witness :
    spawnPendingState.counter
        = loopHold spawnPendingState.loop + spawnPendingState.running
    ∧ (spawnPendingState.loop = .atSpawn msg0 → 1 ≤ spawnPendingState.counter)
    ∧ (executeTask [logTask] none msg0).decrements = 1 :=
  inflight_counter_accounting [msg0] [.gwAdd, .recvOk] spawnPendingState
    [logTask] none msg0 rfl

/-- C9: in any schedule, at most one outcome is ever delivered to the
blocked `Listen` call, and the value `Listen` holds is exactly the first
(hence only) delivered outcome — whichever termination path fires first
wins, and no second outcome is ever reported. -/
theorem listen_reports_exactly_once (buf : List TaskData) (es : List Event)
    (σ : Sys) (h : run (listenInit buf) es = some σ) :
    (reportedValues es).length ≤ 1
    ∧ σ.mainResult = (reportedValues es).head? := by
  obtain ⟨ha, hb⟩ := run_reports h rfl
  exact ⟨hb, ha⟩

/-- Witness for `listen_reports_exactly_once` on a complete clean-shutdown
schedule. -/
theorem listen_reports_exactly_once_witness :
    (reportedValues loopWinsSchedule).length ≤ 1
    ∧ loopWinsFinal.mainResult = (reportedValues loopWinsSchedule).head? :=
  listen_reports_exactly_once [] loopWinsSchedule loopWinsFinal rfl
